import Mathlib

/-!
Verification of the temporal and statistical data-synthesis engine of the
Asana seed-data generator.

Shallow embedding conventions:
- a Python datetime is modeled as rational seconds on a time axis in which
  day boundaries fall at multiples of 86400; a Python date is the integer
  day index (the floor of seconds / 86400);
- the day axis is aligned with the proleptic Gregorian ordinals used by
  Python dates, so day 1 is a Monday and date.weekday() (Monday = 0 ...
  Sunday = 6) becomes (d + 6) % 7;
- every call to the random module is replaced by an explicit draw argument;
  theorems quantify over all draws in the range the corresponding
  random primitive can produce (random.random() in [0,1),
  random.randint(a,b) an integer in [a,b], random.uniform(a,b) in [a,b],
  random.sample a duplicate-free selection from the population);
- Python dicts that the code only iterates or reads in insertion order
  are modeled as association lists in the same order.
-/

namespace Asana

/-- The .date() of a datetime: its day index. A datetime is a rational
number of seconds (day k spans [k * 86400, (k+1) * 86400)); a date is the
integer day index (the Python date ordinal). -/
def dateOf (t : ℚ) : ℤ := ⌊t / 86400⌋

/-- Python date.weekday(): Monday = 0 ... Sunday = 6 (day 1 is a Monday). -/
def weekday (d : ℤ) : ℤ := (d + 6) % 7

/-- src/utils/dates.py, random_datetime_between: start plus
uniform(0, (end - start).total_seconds()); the uniform draw is modeled as
u * (stop - start) with u in [0,1]. No validation of the range is
performed by the source. -/
def random_datetime_between (start stop : ℚ) (u : ℚ) : ℚ :=
  start + u * (stop - start)

/-- src/utils/dates.py, avoid_weekend: with probability,
move a Saturday two days and a Sunday one day forward; r is the
random.random() draw and the date is kept unchanged when r > probability. -/
def avoid_weekend (target_date : ℤ) (probability : ℚ) (r : ℚ) : ℤ :=
  if probability < r then target_date
  else if weekday target_date = 5 then target_date + 2
  else if weekday target_date = 6 then target_date + 1
  else target_date

/-- config.py: WEEKEND_AVOIDANCE_RATE = 0.85. -/
def WEEKEND_AVOIDANCE_RATE : ℚ := 17 / 20

/-- C10: a weekday (Mon-Fri) input is returned unchanged for every draw;
an altered result only arises from a Saturday (moved 2 days) or a Sunday
(moved 1 day) and always lands on a Monday. -/
theorem avoid_weekend_weekday_behaviour (d : ℤ) (p r : ℚ) :
    (weekday d ≤ 4 → avoid_weekend d p r = d) ∧
    (avoid_weekend d p r ≠ d →
      weekday (avoid_weekend d p r) = 0 ∧
      ((weekday d = 5 ∧ avoid_weekend d p r = d + 2) ∨
       (weekday d = 6 ∧ avoid_weekend d p r = d + 1))) := by
  unfold avoid_weekend weekday
  split_ifs with h1 h2 h3
  · exact ⟨fun _ => rfl, fun h => absurd rfl h⟩
  · constructor
    · intro h; omega
    · intro _
      exact ⟨by omega, Or.inl ⟨h2, rfl⟩⟩
  · constructor
    · intro h; omega
    · intro _
      exact ⟨by omega, Or.inr ⟨h3, rfl⟩⟩
  · exact ⟨fun _ => rfl, fun h => absurd rfl h⟩

/-- Witness for C10: the Saturday day 6 with an effective draw is moved to
the Monday day 8. -/
theorem avoid_weekend_weekday_behaviour_witness :
    weekday (avoid_weekend 6 (17/20) (1/2)) = 0 ∧
    avoid_weekend 6 (17/20) (1/2) = 8 := by
  have h := (avoid_weekend_weekday_behaviour 6 (17/20) (1/2)).2
    (by norm_num [avoid_weekend, weekday])
  refine ⟨h.1, ?_⟩
  rcases h.2 with ⟨_, h2⟩ | ⟨h6, _⟩
  · exact h2
  · exact absurd h6 (by norm_num [weekday])

/-- The cumulative-mass bucket walk inlined in src/utils/dates.py,
generate_due_date (the for loop over distribution.items()): cumulative
starts at 0, each bucket adds its probability, and the first bucket with
rand <= cumulative is selected; none is returned when the loop falls
through. -/
def selectBucketAux (r : ℚ) : ℚ → List (String × ℚ) → Option String
  | _, [] => none
  | cumulative, p :: rest =>
    if r ≤ cumulative + p.2 then some p.1
    else selectBucketAux r (cumulative + p.2) rest

/-- Bucket selection over a distribution in insertion order. -/
def selectBucket (distribution : List (String × ℚ)) (r : ℚ) : Option String :=
  selectBucketAux r 0 distribution

/-- Total probability mass of a distribution. -/
def totalMass (distribution : List (String × ℚ)) : ℚ :=
  (distribution.map Prod.snd).sum

/-- config.py: DUE_DATE_DISTRIBUTION, in insertion order. -/
def DUE_DATE_DISTRIBUTION : List (String × ℚ) :=
  [("within_1_week", 1/4), ("within_1_month", 2/5), ("within_3_months", 1/5),
   ("no_due_date", 1/10), ("overdue", 1/20)]

/-- The random draws consumed by generate_due_date: the bucket selector
random.random(), the per-bucket randint day offsets, the clamp
randint(1,7), and the avoid_weekend random.random(). -/
structure DueDraws where
  rand : ℚ
  withinWeek : ℤ
  withinMonth : ℤ
  withinQuarter : ℤ
  overdueDays : ℤ
  defaultDays : ℤ
  clampDays : ℤ
  weekendDraw : ℚ

/-- Each draw lies in the range its random primitive produces
(randint(1,7), randint(8,30), randint(31,90), randint(1,30),
randint(7,30), randint(1,7), random() in [0,1)). -/
def DueDraws.Valid (dr : DueDraws) : Prop :=
  0 ≤ dr.rand ∧ dr.rand < 1 ∧
  1 ≤ dr.withinWeek ∧ dr.withinWeek ≤ 7 ∧
  8 ≤ dr.withinMonth ∧ dr.withinMonth ≤ 30 ∧
  31 ≤ dr.withinQuarter ∧ dr.withinQuarter ≤ 90 ∧
  1 ≤ dr.overdueDays ∧ dr.overdueDays ≤ 30 ∧
  7 ≤ dr.defaultDays ∧ dr.defaultDays ≤ 30 ∧
  1 ≤ dr.clampDays ∧ dr.clampDays ≤ 7 ∧
  0 ≤ dr.weekendDraw ∧ dr.weekendDraw < 1

/-- src/utils/dates.py, generate_due_date: select a bucket by cumulative
mass; no_due_date yields no date; the other buckets add their day offset
(negative for overdue) to created_at; a due date whose day exceeds
now's day is reset to now minus randint(1,7) days; the resulting day
goes through avoid_weekend; when no bucket catches the draw, the default
created_at + 14 days is returned directly. -/
def generate_due_date (created_at : ℚ) (distribution : List (String × ℚ))
    (now : ℚ) (weekendProb : ℚ) (dr : DueDraws) : Option ℤ :=
  match selectBucket distribution dr.rand with
  | none => some (dateOf (created_at + 14 * 86400))
  | some bucket =>
    if bucket = "no_due_date" then none
    else
      let days : ℤ :=
        if bucket = "within_1_week" then dr.withinWeek
        else if bucket = "within_1_month" then dr.withinMonth
        else if bucket = "within_3_months" then dr.withinQuarter
        else if bucket = "overdue" then -dr.overdueDays
        else dr.defaultDays
      let due := created_at + (days : ℚ) * 86400
      let due2 := if dateOf now < dateOf due then now - (dr.clampDays : ℚ) * 86400 else due
      some (avoid_weekend (dateOf due2) weekendProb dr.weekendDraw)

theorem dateOf_sub_int_days (t : ℚ) (k : ℤ) :
    dateOf (t - (k : ℚ) * 86400) = dateOf t - k := by
  unfold dateOf
  have h : (t - (k : ℚ) * 86400) / 86400 = t / 86400 - (k : ℚ) := by ring
  rw [h, Int.floor_sub_int]

theorem avoid_weekend_le (d N : ℤ) (p r : ℚ) (hd : d ≤ N) (hN : weekday N ≤ 4) :
    avoid_weekend d p r ≤ N := by
  unfold avoid_weekend weekday at *
  split_ifs with h1 h2 h3 <;> omega

theorem selectBucket_default (r : ℚ) (h1 : r < 1) :
    selectBucket DUE_DATE_DISTRIBUTION r =
      some (if r ≤ 1/4 then "within_1_week"
        else if r ≤ 13/20 then "within_1_month"
        else if r ≤ 17/20 then "within_3_months"
        else if r ≤ 19/20 then "no_due_date"
        else "overdue") := by
  simp only [selectBucket, selectBucketAux, DUE_DATE_DISTRIBUTION]
  norm_num
  split_ifs <;> first | rfl | linarith

/-- C4 amended: when the horizon end falls on a weekday (Mon-Fri), every
non-null due date produced over the configured distribution is at most
the horizon end day; clamping plus weekend avoidance preserve the bound.
(The unamended claim fails when the horizon end is a Saturday or
Sunday.) -/
theorem generate_due_date_le_horizon (created_at now : ℚ) (dr : DueDraws)
    (hv : dr.Valid) (hN : weekday (dateOf now) ≤ 4) (d : ℤ)
    (h : generate_due_date created_at DUE_DATE_DISTRIBUTION now WEEKEND_AVOIDANCE_RATE dr
      = some d) :
    d ≤ dateOf now := by
  obtain ⟨hr0, hr1, hv3, hv4, hv5, hv6, hv7, hv8, hv9, hv10, hv11, hv12, hc1, hc7, hw0, hw1⟩ := hv
  unfold generate_due_date at h
  rw [selectBucket_default dr.rand hr1] at h
  split_ifs at h with hb1 hb2 hb3 hb4
  all_goals simp only [String.reduceEq, if_true, if_false, ite_true, ite_false,
    Option.some.injEq, reduceCtorEq] at h
  all_goals split_ifs at h with hcl
  all_goals subst h
  all_goals refine avoid_weekend_le _ _ _ _ ?_ hN
  all_goals first
    | (rw [dateOf_sub_int_days]; omega)
    | omega

/-- C4 counterexample: with the horizon end on the Saturday day 6, a due
date landing on that Saturday is weekend-shifted to the Monday day 8, two
days past the horizon end, so the claimed bound fails as stated. -/
theorem generate_due_date_horizon_counterexample :
    DueDraws.Valid ⟨1/10, 3, 8, 31, 1, 7, 1, 1/2⟩ ∧
    generate_due_date (3 * 86400) DUE_DATE_DISTRIBUTION (6 * 86400)
      WEEKEND_AVOIDANCE_RATE ⟨1/10, 3, 8, 31, 1, 7, 1, 1/2⟩ = some 8 ∧
    dateOf (6 * 86400) < 8 := by
  refine ⟨by norm_num [DueDraws.Valid], ?_, by norm_num [dateOf]⟩
  norm_num [generate_due_date, selectBucket, selectBucketAux, DUE_DATE_DISTRIBUTION,
    avoid_weekend, weekday, dateOf, WEEKEND_AVOIDANCE_RATE, String.reduceEq]
  exact fun hx => absurd hx (by simp)

/-- Witness for C4 amended: with the horizon end on the Friday day 5, a
within_1_week draw produces day 3, which is at most day 5. -/
theorem generate_due_date_le_horizon_witness :
    DueDraws.Valid ⟨1/10, 3, 8, 31, 1, 7, 1, 1/2⟩ ∧ (3 : ℤ) ≤ dateOf (5 * 86400) :=
  ⟨by norm_num [DueDraws.Valid],
    generate_due_date_le_horizon 0 (5 * 86400) ⟨1/10, 3, 8, 31, 1, 7, 1, 1/2⟩
      (by norm_num [DueDraws.Valid])
      (by norm_num [weekday, dateOf]) 3
      (by norm_num [generate_due_date, selectBucket, selectBucketAux, DUE_DATE_DISTRIBUTION,
        avoid_weekend, weekday, dateOf, WEEKEND_AVOIDANCE_RATE, String.reduceEq]
          exact fun hx => absurd hx (by simp))⟩

/-- The example distribution of the spec's testable-properties list:
A 0.25, B 0.40, C 0.20, D 0.10, E 0.05 in insertion order. -/
def EXAMPLE_DISTRIBUTION : List (String × ℚ) :=
  [("A", 1/4), ("B", 2/5), ("C", 1/5), ("D", 1/10), ("E", 1/20)]

theorem selectBucketAux_total_lt (r : ℚ) :
    ∀ (dist : List (String × ℚ)) (c : ℚ), (∀ p ∈ dist, 0 ≤ p.2) →
      c + totalMass dist < r → selectBucketAux r c dist = none := by
  intro dist
  induction dist with
  | nil => intro c _ _; rfl
  | cons q rest ih =>
    intro c hpos hlt
    have hmass : totalMass (q :: rest) = q.2 + totalMass rest := by
      simp [totalMass]
    have hrest : 0 ≤ totalMass rest := by
      refine List.sum_nonneg ?_
      intro x hx
      obtain ⟨p, hp, rfl⟩ := List.mem_map.mp hx
      exact hpos p (List.mem_cons_of_mem _ hp)
    rw [hmass] at hlt
    unfold selectBucketAux
    rw [if_neg (by push_neg; linarith)]
    exact ih (c + q.2) (fun p hp => hpos p (List.mem_cons_of_mem _ hp)) (by linarith)

/-- C5 amended: bucket selection walks the buckets in insertion order and
returns the first whose cumulative mass reaches the draw (A at draw 0.10,
B at 0.50, E at 0.999 over the example distribution); but when the total
mass of all buckets is below the draw, no bucket is selected - not the
last one - and generate_due_date falls through to the default due date
created_at + 14 days. -/
theorem bucketed_pick_behaviour :
    (selectBucket EXAMPLE_DISTRIBUTION (1/10) = some "A" ∧
     selectBucket EXAMPLE_DISTRIBUTION (1/2) = some "B" ∧
     selectBucket EXAMPLE_DISTRIBUTION (999/1000) = some "E") ∧
    ∀ (dist : List (String × ℚ)) (dr : DueDraws), (∀ p ∈ dist, 0 ≤ p.2) →
      totalMass dist < dr.rand →
      selectBucket dist dr.rand = none ∧
      ∀ created_at now wp, generate_due_date created_at dist now wp dr =
        some (dateOf (created_at + 14 * 86400)) := by
  constructor
  · refine ⟨?_, ?_, ?_⟩ <;>
      norm_num [selectBucket, selectBucketAux, EXAMPLE_DISTRIBUTION]
  · intro dist dr hpos hlt
    have hnone : selectBucket dist dr.rand = none := by
      have h := selectBucketAux_total_lt dr.rand dist 0 hpos (by linarith)
      simpa [selectBucket] using h
    refine ⟨hnone, ?_⟩
    intro created_at now wp
    unfold generate_due_date
    rw [hnone]

/-- C5 counterexample: over the single-bucket distribution with mass 0.5,
the draw 0.75 exceeds the total mass; no bucket (in particular not the
last bucket) is selected, and the generator produces the unclamped
default created_at + 14 days (day 22 from day 8). -/
theorem bucketed_pick_fallback_counterexample :
    selectBucket [("within_1_week", (1:ℚ)/2)] (3/4) = none ∧
    selectBucket [("within_1_week", (1:ℚ)/2)] (3/4) ≠ some "within_1_week" ∧
    generate_due_date (8 * 86400) [("within_1_week", (1:ℚ)/2)] (1000 * 86400)
      WEEKEND_AVOIDANCE_RATE ⟨3/4, 1, 8, 31, 1, 7, 1, 0⟩ = some 22 := by
  refine ⟨?_, ?_, ?_⟩
  · norm_num [selectBucket, selectBucketAux]
  · norm_num [selectBucket, selectBucketAux]
    exact fun hx => Option.noConfusion hx
  · norm_num [selectBucket, selectBucketAux, generate_due_date, dateOf]

/-- Witness for C5 amended: a total mass of 0.5 below the draw 2/3 makes
selection fall through to the 14-day default. -/
theorem bucketed_pick_behaviour_witness :
    selectBucket [("X", (1:ℚ)/2)] (2/3) = none ∧
    generate_due_date 0 [("X", (1:ℚ)/2)] 0 (17/20) ⟨2/3, 1, 8, 31, 1, 7, 1, 0⟩ =
      some (dateOf (0 + 14 * 86400)) := by
  have h := bucketed_pick_behaviour.2 [("X", (1:ℚ)/2)] ⟨2/3, 1, 8, 31, 1, 7, 1, 0⟩
    (by norm_num) (by norm_num [totalMass])
  exact ⟨h.1, h.2 0 0 (17/20)⟩

/-- src/utils/distributions.py, pareto_distribution: n_top is
max(1, int(n * top_percentage)) (int() truncates, i.e. floor for
non-negative products); the first n_top items of the shuffled population
(random.shuffle is modeled by taking the already-shuffled list as the
input) each weigh ratio / n_top, the remaining items each weigh
(1 - ratio) / len(bottom_items), 0 when the bottom group is empty. -/
def pareto_distribution {α : Type} (shuffled : List α) (ratio top_percentage : ℚ) :
    List (α × ℚ) :=
  let n := shuffled.length
  let n_top := max 1 (⌊(n : ℚ) * top_percentage⌋.toNat)
  let top_items := shuffled.take n_top
  let bottom_items := shuffled.drop n_top
  let top_weight_each := ratio / (n_top : ℚ)
  let bottom_weight_each :=
    if bottom_items.length = 0 then 0 else (1 - ratio) / (bottom_items.length : ℚ)
  top_items.map (fun x => (x, top_weight_each)) ++
    bottom_items.map (fun x => (x, bottom_weight_each))

theorem sum_snd_map_const {α : Type} (l : List α) (c : ℚ) :
    ((l.map (fun x => (x, c))).map Prod.snd).sum = (l.length : ℚ) * c := by
  induction l with
  | nil => simp
  | cons a t ih =>
    simp only [List.map_cons, List.sum_cons, List.length_cons, ih]
    push_cast
    ring

/-- C6 amended: for every non-empty population the top group has size
max(1, floor(n * top_fraction)) - not ceil(n * top_fraction) - and its
weights are top_mass split evenly (summing to top_mass); the remainder
shares 1 - top_mass evenly; for 100 items with fractions 0.2 and mass 0.8
this gives 20 items summing to 0.8 and 80 items summing to 0.2. -/
theorem pareto_distribution_spec {α : Type} (shuffled : List α) (ratio pct : ℚ)
    (n_top : ℕ) (hn : 1 ≤ shuffled.length) (h1 : pct ≤ 1)
    (hnt : n_top = max 1 (⌊(shuffled.length : ℚ) * pct⌋.toNat)) :
    (pareto_distribution shuffled ratio pct).length = shuffled.length ∧
    n_top ≤ shuffled.length ∧
    (∀ p ∈ (pareto_distribution shuffled ratio pct).take n_top,
      p.2 = ratio / (n_top : ℚ)) ∧
    (((pareto_distribution shuffled ratio pct).take n_top).map Prod.snd).sum = ratio ∧
    (∀ p ∈ (pareto_distribution shuffled ratio pct).drop n_top,
      p.2 = (1 - ratio) / ((shuffled.length - n_top : ℕ) : ℚ)) ∧
    (n_top < shuffled.length →
      (((pareto_distribution shuffled ratio pct).drop n_top).map Prod.snd).sum
        = 1 - ratio) := by
  have htopn : n_top ≤ shuffled.length := by
    have hle : (shuffled.length : ℚ) * pct ≤ (shuffled.length : ℚ) := by
      nlinarith [Nat.cast_nonneg (α := ℚ) shuffled.length]
    have hfl : ⌊(shuffled.length : ℚ) * pct⌋ ≤ (shuffled.length : ℤ) := by
      calc ⌊(shuffled.length : ℚ) * pct⌋ ≤ ⌊(shuffled.length : ℚ)⌋ :=
            Int.floor_le_floor hle
        _ = (shuffled.length : ℤ) := Int.floor_natCast _
    omega
  have hntpos : 1 ≤ n_top := by omega
  have htake : (shuffled.take n_top).length = n_top := by
    simp [List.length_take]
    omega
  have hdroplen : (shuffled.drop n_top).length = shuffled.length - n_top := by
    simp [List.length_drop]
  have hres : pareto_distribution shuffled ratio pct =
      (shuffled.take n_top).map (fun x => (x, ratio / (n_top : ℚ))) ++
      (shuffled.drop n_top).map (fun x => (x,
        if (shuffled.drop n_top).length = 0 then 0
        else (1 - ratio) / ((shuffled.drop n_top).length : ℚ))) := by
    simp only [pareto_distribution, ← hnt]
  have hcastpos : (0 : ℚ) < (n_top : ℚ) := by exact_mod_cast hntpos
  have hcastne : ((n_top : ℚ)) ≠ 0 := ne_of_gt hcastpos
  have htakeres : (pareto_distribution shuffled ratio pct).take n_top =
      (shuffled.take n_top).map (fun x => (x, ratio / (n_top : ℚ))) := by
    rw [hres]
    exact List.take_left' (by rw [List.length_map, htake])
  have hdropres : (pareto_distribution shuffled ratio pct).drop n_top =
      (shuffled.drop n_top).map (fun x => (x,
        if (shuffled.drop n_top).length = 0 then 0
        else (1 - ratio) / ((shuffled.drop n_top).length : ℚ))) := by
    rw [hres]
    exact List.drop_left' (by rw [List.length_map, htake])
  refine ⟨?_, htopn, ?_, ?_, ?_, ?_⟩
  · rw [hres]
    simp [htake, hdroplen]
    omega
  · intro p hp
    rw [htakeres] at hp
    obtain ⟨x, _, rfl⟩ := List.mem_map.mp hp
    rfl
  · rw [htakeres, sum_snd_map_const, htake, mul_comm, div_mul_cancel₀ _ hcastne]
  · intro p hp
    rw [hdropres] at hp
    obtain ⟨x, _, rfl⟩ := List.mem_map.mp hp
    simp only [hdroplen]
    by_cases hz : shuffled.length - n_top = 0
    · simp [hz]
    · simp [hz]
  · intro hlt
    have hz : shuffled.length - n_top ≠ 0 := by omega
    rw [hdropres, sum_snd_map_const, hdroplen]
    rw [if_neg (by omega)]
    have hzq : ((shuffled.length - n_top : ℕ) : ℚ) ≠ 0 := by
      exact_mod_cast hz
    rw [mul_comm, div_mul_cancel₀ _ hzq]

/-- C6 counterexample: over a six-item population with top fraction 0.2
and top mass 0.8 the code produces a single top item of weight 0.8 (the
remaining five weigh 0.04 each), whereas the claimed top-group size is
ceil(6 * 0.2) = 2 items. -/
theorem pareto_top_count_counterexample :
    pareto_distribution [0, 1, 2, 3, 4, 5] (4/5) (1/5) =
      [(0, 4/5), (1, 1/25), (2, 1/25), (3, 1/25), (4, 1/25), (5, 1/25)] ∧
    (⌈(6:ℚ) * (1/5)⌉ : ℤ) = 2 := by
  constructor
  · norm_num [pareto_distribution]
  · norm_num [Int.ceil_eq_iff]

/-- Witness for C6 amended: the 100-item population with top fraction 0.2
and top mass 0.8 splits into 20 items summing to weight 0.8 and 80 items
summing to weight 0.2. -/
theorem pareto_distribution_spec_witness :
    (((pareto_distribution (List.range 100) (4/5) (1/5)).take 20).map Prod.snd).sum
      = 4/5 ∧
    (((pareto_distribution (List.range 100) (4/5) (1/5)).drop 20).map Prod.snd).sum
      = 1/5 ∧
    (pareto_distribution (List.range 100) (4/5) (1/5)).length = 100 := by
  have h := pareto_distribution_spec (List.range 100) (4/5) (1/5) 20
    (by simp) (by norm_num) (by norm_num; rfl)
  refine ⟨h.2.2.2.1, ?_, by simpa using h.1⟩
  have h6 := h.2.2.2.2.2 (by simp)
  rw [h6]
  norm_num

/-- The Mon-Wed test of the resampling loop in src/utils/dates.py,
generate_created_at: created.weekday() in [0, 1, 2]. -/
def isMonWed (t : ℚ) : Bool :=
  decide (weekday (dateOf t) = 0 ∨ weekday (dateOf t) = 1 ∨ weekday (dateOf t) = 2)

/-- The while loop of generate_created_at: while the current sample does
not fall on Mon-Wed, take the next resampled datetime; none models the
loop still running when the supplied draws are exhausted. -/
def resampleMonWed (cur : ℚ) : List ℚ → Option ℚ
  | [] => if isMonWed cur then some cur else none
  | d :: rest => if isMonWed cur then some cur else resampleMonWed d rest

/-- src/utils/dates.py, generate_created_at: sample uniformly in
[start, stop]; when weekday_bias holds and the bias draw is below 0.6,
resample until the sample lands on Mon-Wed (us are the uniform draws
feeding random_datetime_between on each loop iteration); finally
replace the time of day by business hours, hour drawn in 9..18 and
minute in 0..59. -/
def generate_created_at (start stop : ℚ) (weekday_bias : Bool)
    (u0 biasDraw : ℚ) (us : List ℚ) (hour minute : ℤ) : Option ℚ :=
  let created := random_datetime_between start stop u0
  let resampled :=
    if weekday_bias ∧ biasDraw < 3/5 then
      resampleMonWed created (us.map (random_datetime_between start stop))
    else some created
  resampled.map (fun c => (dateOf c : ℚ) * 86400 + hour * 3600 + minute * 60)

theorem resampleMonWed_some (cur : ℚ) (ds : List ℚ)
    (h : isMonWed cur = true ∨ ∃ d ∈ ds, isMonWed d = true) :
    ∃ t, resampleMonWed cur ds = some t ∧ isMonWed t = true := by
  induction ds generalizing cur with
  | nil =>
    rcases h with h | h
    · exact ⟨cur, by simp [resampleMonWed, h], h⟩
    · simp at h
  | cons d rest ih =>
    by_cases hc : isMonWed cur
    · exact ⟨cur, by simp [resampleMonWed, hc], hc⟩
    · have hnext : isMonWed d = true ∨ ∃ x ∈ rest, isMonWed x = true := by
        rcases h with h | ⟨x, hx, hxt⟩
        · exact absurd h (by simp [hc])
        · rcases List.mem_cons.mp hx with rfl | hmem
          · exact Or.inl hxt
          · exact Or.inr ⟨x, hmem, hxt⟩
      obtain ⟨t, ht, htm⟩ := ih d hnext
      exact ⟨t, by simp [resampleMonWed, hc, ht], htm⟩

theorem resampleMonWed_const_none (cur : ℚ) (ds : List ℚ)
    (h : isMonWed cur = false) (hall : ∀ d ∈ ds, d = cur) :
    resampleMonWed cur ds = none := by
  induction ds with
  | nil => simp [resampleMonWed, h]
  | cons d rest ih =>
    have hd : d = cur := hall d (List.mem_cons_self _ _)
    subst hd
    simp only [resampleMonWed, h, if_false, Bool.false_eq_true]
    exact ih (fun x hx => hall x (List.mem_cons_of_mem _ hx))

/-- C7 amended: creation-time generation terminates whenever the
weekday-bias resample is skipped (bias draw at least 0.6) or some
available sample lands on Mon-Wed; but it does not terminate for every
valid range: on a range containing no Mon-Wed instant (e.g. the
degenerate range on a single Thursday instant, where every resample
returns the same value), a triggered bias makes the loop run forever -
the result is none for every draw stream. -/
theorem generate_created_at_termination (start stop : ℚ) (u0 biasDraw : ℚ)
    (us : List ℚ) (hour minute : ℤ) :
    (¬ biasDraw < 3/5 →
      generate_created_at start stop true u0 biasDraw us hour minute =
        some ((dateOf (random_datetime_between start stop u0) : ℚ) * 86400
          + hour * 3600 + minute * 60)) ∧
    ((isMonWed (random_datetime_between start stop u0) = true ∨
        ∃ u ∈ us, isMonWed (random_datetime_between start stop u) = true) →
      ∃ t, generate_created_at start stop true u0 biasDraw us hour minute = some t) ∧
    (start = stop → isMonWed start = false → biasDraw < 3/5 →
      generate_created_at start stop true u0 biasDraw us hour minute = none) := by
  refine ⟨?_, ?_, ?_⟩
  · intro hb
    simp [generate_created_at, hb]
  · intro h
    by_cases hb : biasDraw < 3/5
    · have hsome : isMonWed (random_datetime_between start stop u0) = true ∨
          ∃ d ∈ us.map (random_datetime_between start stop), isMonWed d = true := by
        rcases h with h | ⟨u, hu, hut⟩
        · exact Or.inl h
        · exact Or.inr ⟨random_datetime_between start stop u, List.mem_map_of_mem _ hu, hut⟩
      obtain ⟨t, ht, _⟩ := resampleMonWed_some _ _ hsome
      exact ⟨(dateOf t : ℚ) * 86400 + hour * 3600 + minute * 60,
        by simp [generate_created_at, hb, ht]⟩
    · exact ⟨(dateOf (random_datetime_between start stop u0) : ℚ) * 86400
        + hour * 3600 + minute * 60, by simp [generate_created_at, hb]⟩
  · intro heq hmw hb
    subst heq
    have hval : ∀ u, random_datetime_between start start u = start := by
      intro u
      simp [random_datetime_between]
    have hnone := resampleMonWed_const_none start
      (us.map (random_datetime_between start start)) hmw
      (by intro d hd; obtain ⟨u, _, rfl⟩ := List.mem_map.mp hd; exact hval u)
    simp [generate_created_at, hb, hval, hnone]

/-- C7 counterexample: the degenerate range on the single Thursday
instant day 4, 10:00 is valid (start = stop) and every resample returns
that same instant, so a triggered bias never finds a Mon-Wed day:
generation returns no timestamp however many draws are supplied (three
shown here; the amended theorem proves it for every draw stream). -/
theorem generate_created_at_blocks_counterexample :
    generate_created_at (4 * 86400 + 36000) (4 * 86400 + 36000) true 0 0
      [1/2, 1/3, 2/3] 9 0 = none ∧
    weekday (dateOf (4 * 86400 + 36000)) = 3 := by
  constructor
  · norm_num [generate_created_at, resampleMonWed, random_datetime_between,
      isMonWed, weekday, dateOf]
  · norm_num [weekday, dateOf]

/-- Witness for C7 amended: a bias draw of 0.8 skips the resampling loop
and generation returns the business-hours timestamp directly. -/
theorem generate_created_at_termination_witness :
    generate_created_at (8 * 86400) (9 * 86400) true 0 (4/5) [] 9 30 =
      some (8 * 86400 + 9 * 3600 + 30 * 60) := by
  have h := (generate_created_at_termination (8 * 86400) (9 * 86400) 0 (4/5) [] 9 30).1
    (by norm_num)
  rw [h]
  norm_num [random_datetime_between, dateOf]

/-- C8 amended: the temporal engine performs no range validation and no
typed error exists in the code; on an inverted range (stop strictly
before start) random_datetime_between silently returns
start + u * (stop - start), a timestamp between stop and start derived
from the negative duration. -/
theorem random_datetime_between_inverted (start stop u : ℚ)
    (hinv : stop < start) (h0 : 0 ≤ u) (h1 : u ≤ 1) :
    stop ≤ random_datetime_between start stop u ∧
    random_datetime_between start stop u ≤ start := by
  unfold random_datetime_between
  constructor <;> nlinarith

/-- C8 counterexample: the inverted range from day 10 down to day 0
raises no error: random_datetime_between returns the plain timestamp
day 5 - strictly before the range start - and generate_created_at
likewise returns a timestamp rather than failing. -/
theorem invalid_range_silent_counterexample :
    random_datetime_between (10 * 86400) 0 (1/2) = 5 * 86400 ∧
    random_datetime_between (10 * 86400) 0 (1/2) < 10 * 86400 ∧
    generate_created_at (10 * 86400) 0 false (1/2) 0 [] 9 0
      = some (5 * 86400 + 9 * 3600) := by
  refine ⟨by norm_num [random_datetime_between], by norm_num [random_datetime_between], ?_⟩
  simp [generate_created_at, random_datetime_between, dateOf]
  norm_num

/-- Witness for C8 amended: the concrete inverted range from day 10 to
day 0 with the middle draw gives a timestamp between the bounds. -/
theorem random_datetime_between_inverted_witness :
    (0 : ℚ) ≤ random_datetime_between (10 * 86400) 0 (1/2) ∧
    random_datetime_between (10 * 86400) 0 (1/2) ≤ 10 * 86400 :=
  random_datetime_between_inverted (10 * 86400) 0 (1/2) (by norm_num) (by norm_num)
    (by norm_num)

/-- src/utils/dates.py, generate_completion_time: a lognormal draw
(daysDraw) clipped to [1, 14] days is added to created_at; a completion
past now is reset to now minus randint(1,48) hours; when a due date
exists and lies before now, a 0.6-probability draw re-places completion
at due + uniform(-2,1) days, pushed back to created_at + randint(2,48)
hours when that falls before creation. -/
def generate_completion_time (created_at : ℚ) (due_date : Option ℤ) (now : ℚ)
    (daysDraw : ℚ) (clampHours : ℤ) (clusterDraw clusterDays : ℚ)
    (reclampHours : ℤ) : ℚ :=
  let days_to_complete := max 1 (min 14 daysDraw)
  let completed := created_at + days_to_complete * 86400
  let completed := if now < completed then now - (clampHours : ℚ) * 3600 else completed
  match due_date with
  | none => completed
  | some dd =>
    let due_datetime : ℚ := (dd : ℚ) * 86400
    if clusterDraw < 3/5 ∧ due_datetime < now then
      let completed' := due_datetime + clusterDays * 86400
      if completed' < created_at then created_at + (reclampHours : ℚ) * 3600
      else completed'
    else completed

/-- Python timedelta .days of a difference given in seconds: floor
division by 86400. -/
def timedeltaDays (delta : ℚ) : ℤ := ⌊delta / 86400⌋

/-- src/utils/dates.py, generate_modified_at: the completion time when
completed; otherwise a uniform point between creation and now when more
than one day has elapsed, else exactly created_at. -/
def generate_modified_at (created_at : ℚ) (completed_at : Option ℚ) (now : ℚ)
    (u : ℚ) : ℚ :=
  match completed_at with
  | some c => c
  | none =>
    if 1 < timedeltaDays (now - created_at) then
      random_datetime_between created_at now u
    else created_at

/-- The Task record of src/models/entities.py restricted to the fields
the claims concern; the field defaults mirror the pydantic defaults
(status incomplete, completion fields null, counts zero). User and task
identifiers are numbers standing for the generated UUID strings. -/
structure TaskRec where
  task_id : ℕ
  parent_task_id : Option ℕ := none
  name : String := ""
  assignee_id : Option ℕ := none
  created_by : Option ℕ := none
  status : String := "incomplete"
  created_at : ℚ := 0
  modified_at : ℚ := 0
  completed_at : Option ℚ := none
  completed_by : Option ℕ := none
  num_subtasks : ℕ := 0
deriving DecidableEq

/-- The subtask constructor of src/main.py, generate_subtasks (the
Task(...) call): parent_task_id points at the iterated task; assignee
and creator are inherited; status is complete when the parent is
complete and the re-roll draw is below 0.8; created_at is the parent's
creation plus randint(1,48) hours; modified_at is inherited from the
parent; completed_at and completed_by are left at their defaults (null)
even for complete subtasks. -/
def mkSubtask (task : TaskRec) (newId : ℕ) (i : ℕ) (statusDraw : ℚ)
    (offsetHours : ℤ) : TaskRec :=
  { task_id := newId
    parent_task_id := some task.task_id
    name := "Subtask " ++ toString (i + 1) ++ ": " ++ task.name.take 30 ++ "..."
    assignee_id := task.assignee_id
    created_by := task.created_by
    status := if task.status = "complete" ∧ statusDraw < 4/5 then "complete"
      else "incomplete"
    created_at := task.created_at + (offsetHours : ℚ) * 3600
    modified_at := task.modified_at }

/-- The draws consumed by one iteration of the generate_subtasks loop:
the subtask-rate random.random() test against SUBTASK_RATE = 0.3, the
randint(1,5) subtask count, and the per-subtask status and hour-offset
draws (indexed by the subtask position). -/
structure SubDraw where
  rateDraw : ℚ
  numDraw : ℕ
  statusDraw : ℕ → ℚ
  offsetDraw : ℕ → ℤ

/-- The for loop of src/main.py, generate_subtasks: Python list
iteration walks the list by index while the loop body appends subtasks
to that same list, so freshly appended subtasks are themselves visited
later. The growing list is modeled as the visited prefix (done) plus
the unvisited suffix (pending); appending subtasks to the Python list
appends them to pending. none means the fuel or the draw list ran out
while elements were still pending. -/
def generate_subtasks_loop : ℕ → List TaskRec → List TaskRec → ℕ → List SubDraw →
    Option (List TaskRec)
  | 0, _, _, _, _ => none
  | _ + 1, done, [], _, _ => some done
  | fuel + 1, done, task :: pending, nextId, draws =>
    match draws with
    | [] => none
    | dr :: rest =>
      if (3 : ℚ)/10 < dr.rateDraw then
        generate_subtasks_loop fuel (done ++ [task]) pending nextId rest
      else
        let subs := (List.range dr.numDraw).map (fun j =>
          mkSubtask task (nextId + j) j (dr.statusDraw j) (dr.offsetDraw j))
        generate_subtasks_loop fuel (done ++ [task]) (pending ++ subs)
          (nextId + dr.numDraw) rest

/-- The backfill pass of generate_subtasks: each task whose id has
children receives the count of tasks whose parent_task_id equals its
id; ids without children are left untouched. -/
def backfill_subtask_counts (tasks : List TaskRec) : List TaskRec :=
  tasks.map (fun t =>
    let c := (tasks.filter (fun s => s.parent_task_id = some t.task_id)).length
    if c = 0 then t else { t with num_subtasks := c })

/-- src/main.py, generate_subtasks: the growing-list loop followed by
the subtask-count backfill. -/
def generate_subtasks (fuel : ℕ) (tasks : List TaskRec) (nextId : ℕ)
    (draws : List SubDraw) : Option (List TaskRec) :=
  (generate_subtasks_loop fuel [] tasks nextId draws).map backfill_subtask_counts

/-- The root task of the C3 run: a single completed top-level task. -/
def rootTask : TaskRec :=
  { task_id := 0, name := "Root", status := "complete",
    created_at := 0, modified_at := 0 }

/-- C3: iterating the growing task list lets appended subtasks receive
their own subtasks. With a root task whose rate draw hits (0.1 at most
0.3) and whose first subtask's rate draw also hits, the run produces
task 2 whose parent, task 1, itself has the non-null parent 0 -
hierarchy depth 2, contradicting the claimed maximum depth of 1. -/
theorem subtask_depth_exceeds_one :
    (generate_subtasks 10 [rootTask] 1
        [⟨1/10, 1, fun _ => 1/2, fun _ => 5⟩, ⟨1/10, 1, fun _ => 1/2, fun _ => 3⟩,
         ⟨9/10, 0, fun _ => 0, fun _ => 0⟩]).map
      (fun ts => ts.map (fun t => (t.task_id, t.parent_task_id))) =
      some [(0, none), (1, some 0), (2, some 1)] := by
  norm_num +decide [generate_subtasks, generate_subtasks_loop,
    backfill_subtask_counts, mkSubtask, rootTask, String.reduceEq,
    List.filter_cons, List.filter_nil, Option.some.injEq, reduceCtorEq,
    decide_eq_true_eq, if_true, if_false, ite_true, ite_false]

/-- A reachable parent task for the C1 subtask leg: incomplete, created
at 18:00 on day 99 - six hours before the horizon end at day 100 - so
generate_modified_at returns created_at itself (less than one elapsed
day). -/
def freshParentTask : TaskRec :=
  { task_id := 0, status := "incomplete",
    created_at := 100 * 86400 - 21600,
    modified_at := generate_modified_at (100 * 86400 - 21600) none
      (100 * 86400) (1/2) }

/-- C1: both legs of the created_at <= modified_at invariant fail on the
code. A task created at 18:00 on day 99, six hours before the horizon
end, gets its clipped completion (past now) clamped to now - 48 hours,
42 hours BEFORE its creation, and that completion time becomes
modified_at; and a subtask of a fresh incomplete task inherits the
parent's modified_at (equal to the parent's created_at) while its own
created_at lies one hour later. -/
theorem work_item_created_le_modified_violation :
    (generate_modified_at (100 * 86400 - 21600)
        (some (generate_completion_time (100 * 86400 - 21600) none (100 * 86400)
          2 48 1 0 2))
        (100 * 86400) 0
      < 100 * 86400 - 21600) ∧
    ((mkSubtask freshParentTask 1 0 (1/2) 1).modified_at
      < (mkSubtask freshParentTask 1 0 (1/2) 1).created_at) := by
  constructor
  · norm_num [generate_modified_at, generate_completion_time, timedeltaDays,
      random_datetime_between]
  · norm_num [generate_modified_at, mkSubtask, freshParentTask, timedeltaDays,
      random_datetime_between]

/-- A completed parent task whose subtask exhibits the C2 violation. -/
def completedParentTask : TaskRec :=
  { task_id := 0, status := "complete", completed_at := some 0,
    completed_by := some 7, created_by := some 7 }

/-- C2: a subtask re-rolled complete keeps the pydantic defaults
completed_at = null and completed_by = null, because the subtask
constructor never sets them: status complete with both completion
fields null, contradicting the claimed equivalence. -/
theorem subtask_completion_fields_violation :
    (mkSubtask completedParentTask 1 0 (1/2) 1).status = "complete" ∧
    (mkSubtask completedParentTask 1 0 (1/2) 1).completed_at = none ∧
    (mkSubtask completedParentTask 1 0 (1/2) 1).completed_by = none := by
  refine ⟨?_, rfl, rfl⟩
  norm_num [mkSubtask, completedParentTask, String.reduceEq]

/-- A team as seen by membership assignment: its id and its department
(team_type). Team and user identifiers are numbers standing for the
generated UUID strings. -/
structure TeamRec where
  team_id : ℕ
  team_type : String

/-- A team-membership row as constructed in src/main.py,
generate_team_memberships. -/
structure MembershipRec where
  team_id : ℕ
  user_id : ℕ
  is_team_lead : Bool
deriving DecidableEq

/-- The draws consumed per team: the randint(min_size, max_size) target
size and the random.choice position of the lead. -/
structure TeamDraw where
  size : ℕ
  leadIdx : ℕ

/-- src/main.py, generate_team_memberships: users are grouped by
department into pools (modeled as a function from department name to
the current user-id pool); each team looks up its department's pool,
skips when it is empty, draws random.sample(pool, min(size draw, pool
length)) - the sampler pick models random.sample and must return a
duplicate-free selection from its first argument - removes every drawn
member from the shared pool (dept_users.remove(member), modeled by
List.erase), flags one drawn member as lead, and appends one membership
row per member. Later teams of the same department see the shrunken
pool. -/
def generate_team_memberships (pick : List ℕ → ℕ → List ℕ) :
    List (TeamRec × TeamDraw) → (String → List ℕ) → List MembershipRec
  | [], _ => []
  | td :: rest, pools =>
    let dept_users := pools td.1.team_type
    if dept_users = [] then generate_team_memberships pick rest pools
    else
      let target_size := min td.2.size dept_users.length
      let team_members := pick dept_users target_size
      let lead := team_members.getD td.2.leadIdx 0
      let pools' := fun d => if d = td.1.team_type then
          team_members.foldl (fun l m => l.erase m) dept_users
        else pools d
      team_members.map (fun m => ⟨td.1.team_id, m, m == lead⟩) ++
        generate_team_memberships pick rest pools'

theorem eraseFold_subset (ms : List ℕ) : ∀ (l : List ℕ),
    ∀ x ∈ ms.foldl (fun l m => l.erase m) l, x ∈ l := by
  induction ms with
  | nil => intro l x hx; simpa using hx
  | cons m rest ih =>
    intro l x hx
    simp only [List.foldl_cons] at hx
    exact List.erase_subset _ _ (ih (l.erase m) x hx)

theorem eraseFold_nodup (ms : List ℕ) : ∀ (l : List ℕ), l.Nodup →
    (ms.foldl (fun l m => l.erase m) l).Nodup := by
  induction ms with
  | nil => intro l h; simpa using h
  | cons m rest ih =>
    intro l h
    simp only [List.foldl_cons]
    exact ih _ (h.erase m)

theorem mem_eraseFold_not (ms : List ℕ) : ∀ (l : List ℕ), l.Nodup →
    ∀ x ∈ ms, x ∉ ms.foldl (fun l m => l.erase m) l := by
  induction ms with
  | nil => intro l _ x hx; simp at hx
  | cons m rest ih =>
    intro l hl x hx
    simp only [List.foldl_cons]
    rcases List.mem_cons.mp hx with rfl | hmem
    · intro hcon
      have hsub := eraseFold_subset rest (l.erase x) x hcon
      exact ((hl.mem_erase_iff).mp hsub).1 rfl
    · exact ih (l.erase m) (hl.erase m) x hmem

theorem generate_team_memberships_user_mem (pick : List ℕ → ℕ → List ℕ)
    (hpick : ∀ (l : List ℕ) (k : ℕ), l.Nodup → ∀ x ∈ pick l k, x ∈ l) :
    ∀ (teams : List (TeamRec × TeamDraw)) (pools : String → List ℕ),
      (∀ d, (pools d).Nodup) →
      ∀ m ∈ generate_team_memberships pick teams pools,
        ∃ d, m.user_id ∈ pools d := by
  intro teams
  induction teams with
  | nil =>
    intro pools _ m hm
    simp [generate_team_memberships] at hm
  | cons td rest ih =>
    intro pools hnd m hm
    simp only [generate_team_memberships] at hm
    by_cases hempty : pools td.1.team_type = []
    · rw [if_pos hempty] at hm
      exact ih pools hnd m hm
    · rw [if_neg hempty] at hm
      rcases List.mem_append.mp hm with hmem | hrest
      · obtain ⟨u, hu, rfl⟩ := List.mem_map.mp hmem
        exact ⟨td.1.team_type,
          by simpa using hpick _ _ (hnd td.1.team_type) u hu⟩
      · have hnd' : ∀ d, ((fun d => if d = td.1.team_type then
            (pick (pools td.1.team_type)
              (min td.2.size (pools td.1.team_type).length)).foldl
              (fun l m => l.erase m) (pools td.1.team_type)
            else pools d) d).Nodup := by
          intro d
          dsimp only
          by_cases hdt : d = td.1.team_type
          · rw [if_pos hdt]
            exact eraseFold_nodup _ _ (hnd td.1.team_type)
          · rw [if_neg hdt]
            exact hnd d
        obtain ⟨d, hd⟩ := ih _ hnd' m hrest
        refine ⟨d, ?_⟩
        try dsimp only at hd
        by_cases hd' : d = td.1.team_type
        · rw [if_pos hd'] at hd
          rw [hd']
          exact eraseFold_subset _ _ _ hd
        · rw [if_neg hd'] at hd
          exact hd

/-- C9: within a single run no user is assigned to more than one team.
With department pools that are duplicate-free and pairwise disjoint
(users are grouped by their one department) and a sampler that returns
a duplicate-free selection of the pool (as random.sample does), the
membership list produced by the destructive pool-removal loop mentions
every user_id at most once. -/
theorem team_memberships_no_duplicate_user (pick : List ℕ → ℕ → List ℕ)
    (hpick : ∀ l k, l.Nodup → (pick l k).Nodup ∧ ∀ x ∈ pick l k, x ∈ l)
    (teams : List (TeamRec × TeamDraw)) (pools : String → List ℕ)
    (hnd : ∀ d, (pools d).Nodup)
    (hdisj : ∀ d d', d ≠ d' → ∀ u, u ∈ pools d → u ∈ pools d' → False) :
    ((generate_team_memberships pick teams pools).map
      MembershipRec.user_id).Nodup := by
  induction teams generalizing pools with
  | nil => simp [generate_team_memberships]
  | cons td rest ih =>
    simp only [generate_team_memberships]
    by_cases hempty : pools td.1.team_type = []
    · rw [if_pos hempty]
      exact ih pools hnd hdisj
    · rw [if_neg hempty]
      obtain ⟨hmnd, hmsub⟩ := hpick (pools td.1.team_type)
        (min td.2.size (pools td.1.team_type).length) (hnd td.1.team_type)
      have hmapid : ∀ (lead : ℕ) (tid : ℕ) (ms : List ℕ),
          ((ms.map (fun m => (⟨tid, m, m == lead⟩ : MembershipRec))).map
            MembershipRec.user_id) = ms := by
        intro lead tid ms
        induction ms with
        | nil => rfl
        | cons a t iht => simp [iht]
      rw [List.map_append, hmapid]
      have hnd' : ∀ d, ((fun d => if d = td.1.team_type then
          (pick (pools td.1.team_type)
            (min td.2.size (pools td.1.team_type).length)).foldl
            (fun l m => l.erase m) (pools td.1.team_type)
          else pools d) d).Nodup := by
        intro d
        dsimp only
        by_cases hdt : d = td.1.team_type
        · rw [if_pos hdt]
          exact eraseFold_nodup _ _ (hnd td.1.team_type)
        · rw [if_neg hdt]
          exact hnd d
      have hsub' : ∀ d u, u ∈ (fun d => if d = td.1.team_type then
          (pick (pools td.1.team_type)
            (min td.2.size (pools td.1.team_type).length)).foldl
            (fun l m => l.erase m) (pools td.1.team_type)
          else pools d) d → u ∈ pools d := by
        intro d u hu
        try dsimp only at hu
        by_cases hdt : d = td.1.team_type
        · rw [if_pos hdt] at hu
          rw [hdt]
          exact eraseFold_subset _ _ _ hu
        · rw [if_neg hdt] at hu
          exact hu
      have hdisj' : ∀ d d', d ≠ d' → ∀ u,
          u ∈ (fun d => if d = td.1.team_type then
            (pick (pools td.1.team_type)
              (min td.2.size (pools td.1.team_type).length)).foldl
              (fun l m => l.erase m) (pools td.1.team_type)
            else pools d) d →
          u ∈ (fun d => if d = td.1.team_type then
            (pick (pools td.1.team_type)
              (min td.2.size (pools td.1.team_type).length)).foldl
              (fun l m => l.erase m) (pools td.1.team_type)
            else pools d) d' → False := by
        intro d d' hne u hu hu'
        exact hdisj d d' hne u (hsub' d u hu) (hsub' d' u hu')
      refine List.Nodup.append hmnd (ih _ hnd' hdisj') ?_
      intro x hx hx'
      obtain ⟨mrec, hmrec, hxid⟩ := List.mem_map.mp hx'
      obtain ⟨d, hd⟩ := generate_team_memberships_user_mem pick
        (fun l k hl => (hpick l k hl).2) rest _ hnd' mrec hmrec
      rw [hxid] at hd
      try dsimp only at hd
      by_cases hdt : d = td.1.team_type
      · subst hdt
        rw [if_pos rfl] at hd
        exact mem_eraseFold_not _ _ (hnd td.1.team_type) x hx hd
      · rw [if_neg hdt] at hd
        exact hdisj d td.1.team_type hdt x hd (hmsub x hx)

/-- Witness for C9: three teams (two Engineering, one Sales) drawing
with a take-based sampler from disjoint department pools produce
memberships with pairwise distinct user ids. -/
theorem team_memberships_no_duplicate_user_witness :
    ((generate_team_memberships (fun l k => l.take k)
        [(⟨1, "Engineering"⟩, ⟨2, 0⟩), (⟨2, "Engineering"⟩, ⟨3, 1⟩),
         (⟨3, "Sales"⟩, ⟨2, 0⟩)]
        (fun d => if d = "Engineering" then [1, 2, 3, 4]
          else if d = "Sales" then [5, 6] else [])).map
      MembershipRec.user_id).Nodup := by
  refine team_memberships_no_duplicate_user (fun l k => l.take k) ?_ _ _ ?_ ?_
  · intro l k hl
    exact ⟨hl.sublist (List.take_sublist k l), fun x hx => List.take_subset k l hx⟩
  · intro d
    dsimp only
    split_ifs <;> decide
  · intro d d' hne u hu hu'
    try dsimp only at hu hu'
    split_ifs at hu hu' with h1 h2 h3 h4 <;> simp_all <;> omega

end Asana
